import Mathlib

/-
Verification of the autorange prediction engine (daemon/stats, AutoRange
feature): a shallow embedding of its pure helpers and of the per-tick steps
of the watcher loop, with theorems settling the specified properties.

Modelling conventions:
* Go `int` / `int64` are modelled as `Int`, `uint64` as `Nat`; the claims
  checked here use values far below 2^63, where the Go conversions
  (`int(u)`, `uint64(i)`, `int64(x)`) are the identity, so no wrap-around
  is modelled.
* Go integer division truncates toward zero; it is modelled by `Int.tdiv`
  (the same rounding) on `Int` and by `/` on `Nat`.
* Go `float64`/`float32` values are modelled as exact rationals `ℚ`.
  Where a float computation can produce NaN and that matters (the
  `averrageFloat` data-quality guard) the value type is `Option ℚ` with
  `none` standing for NaN.  Every concrete input used in a theorem below
  is chosen so that the corresponding double computation is exact.
* Go runtime faults (integer division by zero, slice index out of range)
  are modelled by returning `none` from the function that would fault.
-/

namespace AutoRange

/-- Source `percent` (part_000 lines 199-205): `value / 100` with an
explicit (redundant) zero check; Go `/` on int truncates toward zero. -/
def percent (value : Int) : Int :=
  if value = 0 then value else Int.tdiv value 100

/-- Source `percentageBetween` (lines 207-214): returns 0 when the baseline
is 0, otherwise `int((float64(that-this)/float64(this))*100)`.  Exactly,
`trunc((that-this)*100/this)`, which is `Int.tdiv ((that-this)*100) this`. -/
def percentageBetween (base that : Int) : Int :=
  if base = 0 then base else Int.tdiv ((that - base) * 100) base

/-- Source `fifoUint` (lines 144-154): capacity 0 returns the slice
unchanged; otherwise drop one leading element when `len >= size`, then
append. -/
def fifoUint (array : List Nat) (value : Nat) (size : Nat) : List Nat :=
  if size = 0 then array
  else if array.length ≥ size then array.drop 1 ++ [value]
  else array ++ [value]

/-- Source `fifoFloat` (lines 156-166): same algorithm on float64 slices. -/
def fifoFloat (array : List ℚ) (value : ℚ) (size : Nat) : List ℚ :=
  if size = 0 then array
  else if array.length ≥ size then array.drop 1 ++ [value]
  else array ++ [value]

/-- Repeated pushes through `fifoUint` starting from a given series. -/
def pushAllUint (init : List Nat) (vs : List Nat) (size : Nat) : List Nat :=
  vs.foldl (fun a v => fifoUint a v size) init

/-- Source `lowestOf` (lines 168-181): 1 on an empty slice, else the
minimum. -/
def lowestOf : List Nat → Nat
  | [] => 1
  | a :: l => l.foldl (fun lowest value => if value < lowest then value else lowest) a

/-- Source `highestOf` (lines 183-197): 0 on an empty slice, else the
maximum (returned through an `int` conversion in Go). -/
def highestOf : List Nat → Nat
  | [] => 0
  | a :: l => l.foldl (fun best value => if value > best then value else best) a

/-- Source `processMemoryStats` (lines 636-654).  `usage := int(mUsage)`;
note both branch conditions divide `max - min` by 100 twice: once inside
`percent` and once by the literal `/100`. -/
def processMemoryStats (mUsage : Nat) (min max threshold : Int) : Int × Int :=
  let usage : Int := (mUsage : Int)
  if usage > (min + Int.tdiv (percent (max - min)) 100) * threshold then
    let distance := percentageBetween min usage
    let min1 := min + distance * percent min
    let max1 := min1 + threshold * percent min1
    (min1, max1)
  else if usage < (min - Int.tdiv (percent (max - min)) 100) * threshold then
    let min1 := usage + threshold * percent usage
    let max1 := min1 + threshold * percent min1
    (min1, max1)
  else (min, max)

/-- Source constant (line 61). -/
def kiB : Int := 1024

/-- Source constant (line 62). -/
def miB : Int := 1024 * kiB

/-- Source constant (line 63): the absolute memory-limit floor, 5 MiB. -/
def minAllowedMemoryLimit : Int := 5 * miB

/-- Source `UpdateResources` (lines 248-250): thresholds below 10 are
raised to 10 before the final limit is computed. -/
def effectiveThreshold (threshold : Int) : Int :=
  if threshold < 10 then 10 else threshold

/-- Source `UpdateResources` (line 252): the memory limit before clamping,
`sugMax + percent(highest)*(threshold*2)`. -/
def rawMemoryLimit (sugMax threshold highest : Int) : Int :=
  sugMax + percent highest * (effectiveThreshold threshold * 2)

/-- Source `UpdateResources` (lines 253-255): limits below the floor snap
to `minAllowedMemoryLimit + miB`. -/
def clampedMemoryLimit (sugMax threshold highest : Int) : Int :=
  if rawMemoryLimit sugMax threshold highest < minAllowedMemoryLimit
  then minAllowedMemoryLimit + miB
  else rawMemoryLimit sugMax threshold highest

/-- Source `UpdateResources` (line 261): the reservation before clamping,
`int64(uint64(sugMin)+lowest) / 2` (int64 division truncates). -/
def rawReservation (sugMin lowest : Int) : Int :=
  Int.tdiv (sugMin + lowest) 2

/-- Source `UpdateResources` (lines 262-264): reservations below the floor
snap to `minAllowedMemoryLimit + 5*miB`. -/
def clampedReservation (sugMin lowest : Int) : Int :=
  if rawReservation sugMin lowest < minAllowedMemoryLimit
  then minAllowedMemoryLimit + 5 * miB
  else rawReservation sugMin lowest

/-- Source `UpdateResources` (lines 266-268): if the clamped reservation
exceeds the clamped limit the two are swapped.  Returns the final pair
`(Memory, MemoryReservation)`. -/
def finalMemoryPair (sugMin sugMax threshold highest lowest : Int) : Int × Int :=
  if clampedReservation sugMin lowest > clampedMemoryLimit sugMax threshold highest
  then (clampedReservation sugMin lowest, clampedMemoryLimit sugMax threshold highest)
  else (clampedMemoryLimit sugMax threshold highest, clampedReservation sugMin lowest)

/-- Source `UpdateResources` retry loop (lines 291-307), with the update
call abstracted as `success k` = "the k-th call (0-based) to
`ContainerUpdate` succeeds".  `count` starts at 10; the loop body performs
one call, breaks on success, breaks when `count == 0`, and otherwise
decrements `count` and waits one 30s tick.  The function returns the
number of calls performed. -/
def retryFrom (success : Nat → Bool) : Nat → Nat → Nat
  | 0, made => made + 1
  | count + 1, made =>
    if success made then made + 1 else retryFrom success count (made + 1)

/-- Number of `ContainerUpdate` calls the retry loop performs, starting
from `count = 10` as in the source. -/
def retryAttempts (success : Nat → Bool) : Nat :=
  retryFrom success 10 0

/-- Source `getExtremeValues` (lines 390-397): note the `else if`, so at
most one of the two extremes is updated by a single call.  Returns
`(lowest, highest)` as in Go. -/
def getExtremeValues (usage lowest highest : Nat) : Nat × Nat :=
  if usage < lowest then (usage, highest)
  else if usage > highest then (lowest, usage)
  else (lowest, highest)

/-- Extreme tracking over one window: the per-window reset (line 502) sets
`highest, lowest = 0, usage`; each subsequent tick runs
`getExtremeValues` (line 477).  Returns the `(lowest, highest)` pair after
the listed samples. -/
def windowExtremes (resetUsage : Nat) (samples : List Nat) : Nat × Nat :=
  samples.foldl (fun p u => getExtremeValues u p.1 p.2) (resetUsage, 0)

/-- Source line 491: the value pushed on the amplitude series is
`highest/lowest` on uint64.  Go faults (divide-by-zero panic) when
`lowest = 0`; the fault is modelled as `none`. -/
def amplitudeEntry (highest lowest : Nat) : Option Nat :=
  if lowest = 0 then none else some (highest / lowest)

/-- Inner loop of `generateMemoryWeight` (lines 578-588): stops at the
first zero entry; `distance := float32(uint64(highest)/number)` is an
integer division; `toAdd := 1/distance` is clamped to 1.0 when it is
+Inf, i.e. exactly when `distance = 0`. -/
def genWeightLoop (highest : Nat) : List Nat → List ℚ
  | [] => []
  | n :: ns =>
    if n = 0 then []
    else (if highest / n = 0 then (1 : ℚ) else 1 / ((highest / n : Nat) : ℚ)) ::
      genWeightLoop highest ns

/-- Source `generateMemoryWeight` (lines 570-590): empty result when the
reference maximum is zero, otherwise the clamped inverse-distance weights
up to the first zero entry of `array`. -/
def generateMemoryWeight (array highestArray : List Nat) : List ℚ :=
  if highestOf highestArray = 0 then []
  else genWeightLoop (highestOf highestArray) array

/-- Truncation of a rational toward zero, the behaviour of Go `int(f)`. -/
def truncQ (q : ℚ) : Int := Int.tdiv q.num (q.den : Int)

/-- Accumulation loop of `weightedAverrage` (lines 599-601):
`total += int(float32(number)/weight[index])` for every index of `array`.
Indexing `weight[index]` past the end of the weight slice is a Go runtime
fault, modelled as `none`. -/
def wavgTotal : List Nat → List ℚ → Option Int
  | [], _ => some 0
  | _ :: _, [] => none
  | n :: ns, w :: ws =>
    match wavgTotal ns ws with
    | none => none
    | some t => some (truncQ ((n : ℚ) / w) + t)

/-- Source `weightedAverrage` (lines 592-604): guard returns 0 when either
slice is empty; otherwise `total / len(array)` (int division). -/
def weightedAverrage (array : List Nat) (weight : List ℚ) : Option Int :=
  if array.length = 0 ∨ weight.length = 0 then some 0
  else
    match wavgTotal array weight with
    | none => none
    | some total => some (Int.tdiv total (array.length : Int))

/-- Source `averrageFloat` (lines 606-621) with NaN modelled as `none`:
`arrayLen` is decremented for every NaN entry and the NaN entries are
skipped by the sum, so the function returns `sum(valid)/len(valid)`; when
every entry of a non-empty slice is NaN this is the float division
`0.0/0.0`, which is NaN (`none`). -/
def averrageFloat (array : List (Option ℚ)) : Option ℚ :=
  if array.length = 0 then some 0
  else
    if (array.filterMap id).length = 0 then none
    else some ((array.filterMap id).sum / ((array.filterMap id).length : ℚ))

/-- Source `averrageFloat` specialised to NaN-free series (plain `ℚ`
values), as used inside the CPU window step below. -/
def averrageFloatQ (array : List ℚ) : ℚ :=
  if array.length = 0 then 0 else array.sum / (array.length : ℚ)

/-- Source `averrage` (lines 623-634): integer mean, 0 on empty input. -/
def averrage (array : List Nat) : Nat :=
  if array.length = 0 then 0 else array.sum / array.length

/-- Per-watcher CPU state: the four series of `TimeSerieCPU` and
`PredictedValueCPU`, the loop locals `oldUsage`, `oldSystem`, `cpuTurn`
of `Watch` (lines 425-426), and the `CPUPrediction` flag. -/
structure CPUSt where
  percent : List ℚ
  usage : List ℚ
  predPercent : List ℚ
  predUsage : List ℚ
  oldUsage : Nat
  oldSystem : Nat
  cpuTurn : Nat
  done : Bool
deriving DecidableEq

/-- The CPU state at the first processed tick of `Watch`: empty series
(`NewObservor`), `oldUsage = oldSystem = 0` and `cpuTurn = 0`
(line 425-426), prediction not done. -/
def freshCPUSt : CPUSt := ⟨[], [], [], [], 0, 0, 0, false⟩

/-- Source `Watch`, cpu branch of the per-category dispatch (lines
523-558): compute the deltas against the previous cumulative values, push
percent and delta on the series, then either process the window
(`cpuTurn >= limit`: push window averages on the predicted series, latch
the done flag when they reach the limit, reset `cpuTurn`, and leave the
previous cumulative values untouched because of the `continue`) or
advance `cpuTurn` and seed `oldUsage`/`oldSystem` from the current
sample.  The derived display strings written into the configuration map
are not modelled. -/
def cpuBranch (s : CPUSt) (totalUsage systemUsage ncpus limit : Nat) : CPUSt :=
  let deltaUsage : ℚ := (totalUsage : ℚ) - (s.oldUsage : ℚ)
  let deltaSystem : ℚ := (systemUsage : ℚ) - (s.oldSystem : ℚ)
  let cpuPercent : ℚ := deltaUsage / deltaSystem * (ncpus : ℚ) * 100
  let percent := fifoFloat s.percent cpuPercent limit
  let usage := fifoFloat s.usage deltaUsage limit
  if s.cpuTurn ≥ limit then
    let predPercent := fifoFloat s.predPercent (averrageFloatQ percent) limit
    let predUsage := fifoFloat s.predUsage (averrageFloatQ usage) limit
    { percent := percent, usage := usage,
      predPercent := predPercent, predUsage := predUsage,
      oldUsage := s.oldUsage, oldSystem := s.oldSystem, cpuTurn := 0,
      done := if predPercent.length ≥ limit then true else s.done }
  else
    { percent := percent, usage := usage,
      predPercent := s.predPercent, predUsage := s.predUsage,
      oldUsage := totalUsage, oldSystem := systemUsage,
      cpuTurn := s.cpuTurn + 1, done := s.done }

/-- Source `startRoutine` (lines 406-419), restricted to its effect on the
CPU percent series: when both base values are nonzero the code evaluates
`fifoFloat(percent, float64(((cpuMin+cpuMax)/2)/int(ncpus)), limit)` but
never assigns the result, so the stored series is returned unchanged. -/
def startRoutineCPUPercent (percent : List ℚ) (cpuMin cpuMax ncpus : Int)
    (limit : Nat) : List ℚ :=
  if cpuMin ≠ 0 ∧ cpuMax ≠ 0 then
    let _seed := fifoFloat percent
      ((Int.tdiv (Int.tdiv (cpuMin + cpuMax) 2) ncpus : Int) : ℚ) limit
    percent
  else percent

/-! Helper lemmas. -/

/-- The zero check inside `percent` is redundant: it always truncates by
100. -/
theorem percent_eq_tdiv (v : Int) : percent v = Int.tdiv v 100 := by
  unfold percent
  split_ifs with h
  · subst h; rfl
  · rfl

/-- Pushing one more value through `fifoUint` folds on the right. -/
theorem pushAllUint_append (init : List Nat) (vs : List Nat) (v : Nat) (size : Nat) :
    pushAllUint init (vs ++ [v]) size = fifoUint (pushAllUint init vs size) v size := by
  simp [pushAllUint, List.foldl_append]

/-- Starting from the empty series, the bounded series holds exactly the
most recent `size` pushed values, in push order. -/
theorem pushAllUint_eq_drop (vs : List Nat) (size : Nat) :
    pushAllUint [] vs size = vs.drop (vs.length - size) := by
  induction vs using List.reverseRecOn with
  | nil => simp [pushAllUint]
  | append_singleton l a ih =>
    rw [pushAllUint_append, ih]
    rcases Nat.eq_zero_or_pos size with hs | hs
    · subst hs
      simp [fifoUint, List.drop_length]
    · rcases le_or_lt size l.length with hl | hl
      · have hdroplen : (l.drop (l.length - size)).length = size := by
          rw [List.length_drop]; omega
        have hcond : (l.drop (l.length - size)).length ≥ size := by omega
        unfold fifoUint
        rw [if_neg (by omega), if_pos hcond, List.drop_drop]
        have harith : (l ++ [a]).length - size = l.length - size + 1 := by
          simp only [List.length_append, List.length_cons, List.length_nil]; omega
        rw [harith, List.drop_append_of_le_length (by omega)]
      · have hdroplen : l.length - size = 0 := by omega
        rw [hdroplen, List.drop_zero]
        unfold fifoUint
        rw [if_neg (by omega), if_neg (by omega)]
        have harith : (l ++ [a]).length - size = 0 := by
          simp only [List.length_append, List.length_cons, List.length_nil]; omega
        rw [harith, List.drop_zero]

/-- The first component of the extreme-tracking fold stays 0 once the
reset seeded it with 0. -/
theorem foldl_extremes_fst_zero :
    ∀ (samples : List Nat) (p : Nat × Nat), p.1 = 0 →
      (samples.foldl (fun q u => getExtremeValues u q.1 q.2) p).1 = 0 := by
  intro samples
  induction samples with
  | nil => intro p hp; exact hp
  | cons s rest ih =>
    intro p hp
    simp only [List.foldl_cons]
    apply ih
    rw [hp]
    unfold getExtremeValues
    split_ifs with h1 h2
    · exact absurd h1 (Nat.not_lt_zero s)
    · rfl
    · rfl

/-- Over a strictly decreasing run of samples the extreme-tracking fold
never takes the highest branch: the lowest tracks the last sample and the
highest keeps its reset value 0. -/
theorem windowExtremes_chain :
    ∀ (samples : List Nat) (init : Nat), List.Chain (· > ·) init samples →
      windowExtremes init samples = (samples.getLastD init, 0) := by
  intro samples
  induction samples with
  | nil => intro init _; rfl
  | cons s rest ih =>
    intro init h
    rw [List.chain_cons] at h
    obtain ⟨h1, h2⟩ := h
    have hstep : getExtremeValues s init 0 = (s, 0) := by
      unfold getExtremeValues
      rw [if_pos h1]
    have hfold : windowExtremes init (s :: rest) = windowExtremes s rest := by
      unfold windowExtremes
      simp only [List.foldl_cons]
      rw [hstep]
    rw [hfold, ih s h2, List.getLastD_cons]

/-- A fold by the pointwise maximum step never goes below its seed. -/
theorem le_foldl_max :
    ∀ (l : List Nat) (b : Nat),
      b ≤ l.foldl (fun best value => if value > best then value else best) b := by
  intro l
  induction l with
  | nil => intro b; exact le_refl b
  | cons v rest ih =>
    intro b
    simp only [List.foldl_cons]
    refine le_trans ?_ (ih _)
    split_ifs with h
    · exact le_of_lt h
    · exact le_refl b

/-- The head bounds `highestOf` from below. -/
theorem head_le_highestOf (a : Nat) (l : List Nat) : a ≤ highestOf (a :: l) :=
  le_foldl_max l a

/-- The weight loop stops strictly before the end of a series that
contains a zero entry. -/
theorem genWeightLoop_length_lt (h : Nat) :
    ∀ l : List Nat, (0 : Nat) ∈ l → (genWeightLoop h l).length < l.length := by
  intro l
  induction l with
  | nil => intro hmem; simp at hmem
  | cons n ns ih =>
    intro hmem
    by_cases hn : n = 0
    · subst hn
      rw [show genWeightLoop h (0 :: ns) = [] from by simp [genWeightLoop]]
      simp only [List.length_nil, List.length_cons]
      omega
    · have hmem2 : (0 : Nat) ∈ ns := by
        rcases List.mem_cons.mp hmem with h0 | h0
        · exact absurd h0.symm hn
        · exact h0
      simp only [genWeightLoop, if_neg hn, List.length_cons]
      exact Nat.succ_lt_succ (ih hmem2)

/-- A weight slice shorter than the value slice makes the accumulation
loop fault. -/
theorem wavgTotal_none :
    ∀ (arr : List Nat) (w : List ℚ), w.length < arr.length → wavgTotal arr w = none := by
  intro arr
  induction arr with
  | nil => intro w hw; simp at hw
  | cons n ns ih =>
    intro w hw
    cases w with
    | nil => rfl
    | cons x xs =>
      have hlt : xs.length < ns.length := by
        simp only [List.length_cons] at hw; omega
      simp only [wavgTotal]
      rw [ih xs hlt]

/-! Claim theorems. -/

/-- C1 counterexample: at `usage = 10304`, `min = 1024`, `max = 2048`,
`threshold = 10` the claimed bracket conditions (margin `(max-min)/100`)
both fail, so the claim predicts an unchanged bracket, yet
`processMemoryStats` grows it (the code divides the margin by 100 twice,
triggering at `usage > 10240` rather than `10340`). -/
theorem processMemoryStats_spec_bracket_false :
    ¬ ((10304 : Nat) : Int) > ((1024 : Int) + (2048 - 1024) / 100) * 10 ∧
    ¬ ((10304 : Nat) : Int) < ((1024 : Int) - (2048 - 1024) / 100) * 10 ∧
    processMemoryStats 10304 1024 2048 10 ≠ ((1024 : Int), (2048 : Int)) := by
  decide

/-- C1 (amended): the memory bracket step, with the code's actual trigger
margins: grow when `usage > (min + ((max-min)/100)/100) * threshold` to
`min1 = min + percentageBetween(min, usage)*(min/100)` and
`max1 = min1 + threshold*(min1/100)`; shrink when
`usage < (min - ((max-min)/100)/100) * threshold` to
`min1 = usage + threshold*(usage/100)` and `max1 = min1 +
threshold*(min1/100)`; otherwise unchanged (all divisions truncate
toward zero). -/
theorem processMemoryStats_bracket_step (mUsage : Nat) (min max threshold : Int) :
    ((mUsage : Int) > (min + Int.tdiv (Int.tdiv (max - min) 100) 100) * threshold →
      processMemoryStats mUsage min max threshold =
        (min + percentageBetween min (mUsage : Int) * Int.tdiv min 100,
         min + percentageBetween min (mUsage : Int) * Int.tdiv min 100 +
           threshold *
             Int.tdiv (min + percentageBetween min (mUsage : Int) * Int.tdiv min 100) 100)) ∧
    (¬ (mUsage : Int) > (min + Int.tdiv (Int.tdiv (max - min) 100) 100) * threshold →
      (mUsage : Int) < (min - Int.tdiv (Int.tdiv (max - min) 100) 100) * threshold →
      processMemoryStats mUsage min max threshold =
        ((mUsage : Int) + threshold * Int.tdiv (mUsage : Int) 100,
         (mUsage : Int) + threshold * Int.tdiv (mUsage : Int) 100 +
           threshold *
             Int.tdiv ((mUsage : Int) + threshold * Int.tdiv (mUsage : Int) 100) 100)) ∧
    (¬ (mUsage : Int) > (min + Int.tdiv (Int.tdiv (max - min) 100) 100) * threshold →
      ¬ (mUsage : Int) < (min - Int.tdiv (Int.tdiv (max - min) 100) 100) * threshold →
      processMemoryStats mUsage min max threshold = (min, max)) := by
  refine ⟨?_, ?_, ?_⟩
  · intro h1
    simp only [processMemoryStats, percent_eq_tdiv]
    rw [if_pos h1]
  · intro h1 h2
    simp only [processMemoryStats, percent_eq_tdiv]
    rw [if_neg h1, if_pos h2]
  · intro h1 h2
    simp only [processMemoryStats, percent_eq_tdiv]
    rw [if_neg h1, if_neg h2]

/-- C1 witness: grow branch at `usage = 50000`, `min = 1000`,
`max = 2000`, `threshold = 10`. -/
theorem processMemoryStats_bracket_step_witness :
    ((50000 : Nat) : Int) > ((1000 : Int) + Int.tdiv (Int.tdiv (2000 - 1000) 100) 100) * 10 ∧
    processMemoryStats 50000 1000 2000 10 =
      (1000 + percentageBetween 1000 ((50000 : Nat) : Int) * Int.tdiv 1000 100,
       1000 + percentageBetween 1000 ((50000 : Nat) : Int) * Int.tdiv 1000 100 +
         10 * Int.tdiv (1000 + percentageBetween 1000 ((50000 : Nat) : Int) * Int.tdiv 1000 100)
           100) :=
  ⟨by decide, (processMemoryStats_bracket_step 50000 1000 2000 10).1 (by decide)⟩

/-- C2 counterexample: with capacity 1 a push onto an initial series of
length 2 drops only one element, so the result still has length 2 > 1;
the claimed length invariant fails for arbitrary initial series. -/
theorem fifoUint_length_bound_false :
    fifoUint [1, 2] 3 1 = [2, 3] ∧ ¬ (fifoUint [1, 2] 3 1).length ≤ 1 := by
  decide

/-- C2 (amended): capacity 0 pushes return the series unchanged;
otherwise a push preserves `length ≤ N` whenever the series already
satisfies it (each push drops exactly one oldest element when the length
is at least N, then appends); and starting from the empty series the
bounded series holds exactly the most recent `min(N, k)` pushed values
in order. -/
theorem fifo_bounded_series :
    (∀ (a : List Nat) (v : Nat), fifoUint a v 0 = a) ∧
    (∀ (a : List ℚ) (v : ℚ), fifoFloat a v 0 = a) ∧
    (∀ (a : List Nat) (v : Nat) (N : Nat), a.length ≤ N → (fifoUint a v N).length ≤ N) ∧
    (∀ (a : List ℚ) (v : ℚ) (N : Nat), a.length ≤ N → (fifoFloat a v N).length ≤ N) ∧
    (∀ (vs : List Nat) (N : Nat), pushAllUint [] vs N = vs.drop (vs.length - N)) := by
  refine ⟨?_, ?_, ?_, ?_, ?_⟩
  · intro a v; simp [fifoUint]
  · intro a v; simp [fifoFloat]
  · intro a v N h
    unfold fifoUint
    split_ifs with h0 h1
    · exact h
    · simp only [List.length_append, List.length_drop, List.length_cons, List.length_nil]
      omega
    · simp only [List.length_append, List.length_cons, List.length_nil]
      omega
  · intro a v N h
    unfold fifoFloat
    split_ifs with h0 h1
    · exact h
    · simp only [List.length_append, List.length_drop, List.length_cons, List.length_nil]
      omega
    · simp only [List.length_append, List.length_cons, List.length_nil]
      omega
  · exact pushAllUint_eq_drop

/-- C2 witness: a push at capacity 3 keeps the length within 3. -/
theorem fifo_bounded_series_witness :
    ([1, 2] : List Nat).length ≤ 3 ∧ (fifoUint [1, 2] 9 3).length ≤ 3 :=
  ⟨by decide, fifo_bounded_series.2.2.1 [1, 2] 9 3 (by decide)⟩

/-- C3 counterexample: the amplitude computation at `highest = 5`,
`lowest = 0` faults (Go divide-by-zero panic) instead of producing the
claimed guarded value `5 / 1`. -/
theorem amplitude_guard_false :
    amplitudeEntry 5 0 = none ∧ amplitudeEntry 5 0 ≠ some (5 / 1) := by
  decide

/-- C3 (amended): the amplitude value appended at a window boundary is
`highest / lowest` with no division-by-zero guard: it is the plain
quotient when `lowest ≠ 0` and a runtime fault when `lowest = 0`; in
particular every window whose reset usage sample is 0 keeps `lowest = 0`
and faults at the boundary, whatever the later samples are. -/
theorem amplitude_unguarded (highest lowest : Nat) :
    (lowest ≠ 0 → amplitudeEntry highest lowest = some (highest / lowest)) ∧
    (lowest = 0 → amplitudeEntry highest lowest = none) ∧
    (∀ samples : List Nat,
      amplitudeEntry (windowExtremes 0 samples).2 (windowExtremes 0 samples).1 = none) := by
  refine ⟨?_, ?_, ?_⟩
  · intro h
    unfold amplitudeEntry
    rw [if_neg h]
  · intro h
    unfold amplitudeEntry
    rw [if_pos h]
  · intro samples
    have hz : (windowExtremes 0 samples).1 = 0 :=
      foldl_extremes_fst_zero samples (0, 0) rfl
    unfold amplitudeEntry
    rw [if_pos hz]

/-- C3 witness: a window with nonzero lowest divides, one with reset
usage 0 faults. -/
theorem amplitude_unguarded_witness :
    (2 : Nat) ≠ 0 ∧ amplitudeEntry 6 2 = some (6 / 2) ∧
    amplitudeEntry (windowExtremes 0 [7, 3]).2 (windowExtremes 0 [7, 3]).1 = none :=
  ⟨by decide, (amplitude_unguarded 6 2).1 (by decide), (amplitude_unguarded 6 2).2.2 [7, 3]⟩

/-- C4 (code_bug evidence): when every `ContainerUpdate` call fails the
retry loop performs 11 calls, not the 10 the claim (and the code's own
error log, which reports `baseCount = 10` attempts) states; a success on
the first call stops after exactly 1 call. -/
theorem retryAttempts_count :
    retryAttempts (fun _ => false) = 11 ∧
    retryAttempts (fun _ => true) = 1 ∧
    ¬ retryAttempts (fun _ => false) = 10 := by
  decide

/-- C5: in `UpdateResources`, a computed memory limit below the 5 MiB
floor is raised exactly to floor + 1 MiB; a computed reservation below
the floor is raised exactly to floor + 5 MiB; and after both clamps the
final pair is swapped whenever the reservation exceeds the limit, so the
final reservation never exceeds the final limit. -/
theorem updateResources_memory_clamps (sugMin sugMax threshold highest lowest : Int) :
    (rawMemoryLimit sugMax threshold highest < minAllowedMemoryLimit →
      clampedMemoryLimit sugMax threshold highest = minAllowedMemoryLimit + miB) ∧
    (rawReservation sugMin lowest < minAllowedMemoryLimit →
      clampedReservation sugMin lowest = minAllowedMemoryLimit + 5 * miB) ∧
    (finalMemoryPair sugMin sugMax threshold highest lowest).2 ≤
      (finalMemoryPair sugMin sugMax threshold highest lowest).1 := by
  refine ⟨?_, ?_, ?_⟩
  · intro h
    unfold clampedMemoryLimit
    rw [if_pos h]
  · intro h
    unfold clampedReservation
    rw [if_pos h]
  · unfold finalMemoryPair
    split_ifs with h
    · exact le_of_lt h
    · exact not_lt.mp h

/-- C5 witness: all-zero inputs hit both clamps, and the final pair is
the swapped `(floor + 5 MiB, floor + 1 MiB)`. -/
theorem updateResources_memory_clamps_witness :
    rawMemoryLimit 0 0 0 < minAllowedMemoryLimit ∧
    clampedMemoryLimit 0 0 0 = minAllowedMemoryLimit + miB ∧
    rawReservation 0 0 < minAllowedMemoryLimit ∧
    clampedReservation 0 0 = minAllowedMemoryLimit + 5 * miB ∧
    (finalMemoryPair 0 0 0 0 0).2 ≤ (finalMemoryPair 0 0 0 0 0).1 :=
  ⟨by decide, (updateResources_memory_clamps 0 0 0 0 0).1 (by decide),
   by decide, (updateResources_memory_clamps 0 0 0 0 0).2.1 (by decide),
   (updateResources_memory_clamps 0 0 0 0 0).2.2⟩

/-- C6 counterexample: on the very first processed tick (previous
cumulative values still 0, `cpuTurn = 0`) the cpu branch appends a
percent value to the CPU series — the series has length 1 afterwards,
not 0 as the claim states. -/
theorem cpu_first_tick_appends :
    (cpuBranch freshCPUSt 100 1000 2 5).percent.length = 1 ∧
    (cpuBranch freshCPUSt 100 1000 2 5).percent ≠ [] := by
  constructor <;> simp [cpuBranch, freshCPUSt, fifoFloat]

/-- C6 (amended): on the first tick after the watcher starts the cpu
branch both seeds the previous cumulative usage and system values and
appends one percent sample computed against previous values 0, namely
`(total/system) * ncpus * 100`. -/
theorem cpu_first_tick_step (totalUsage systemUsage ncpus limit : Nat) (h : 0 < limit) :
    (cpuBranch freshCPUSt totalUsage systemUsage ncpus limit).percent =
      [(totalUsage : ℚ) / (systemUsage : ℚ) * (ncpus : ℚ) * 100] ∧
    (cpuBranch freshCPUSt totalUsage systemUsage ncpus limit).usage = [(totalUsage : ℚ)] ∧
    (cpuBranch freshCPUSt totalUsage systemUsage ncpus limit).oldUsage = totalUsage ∧
    (cpuBranch freshCPUSt totalUsage systemUsage ncpus limit).oldSystem = systemUsage ∧
    (cpuBranch freshCPUSt totalUsage systemUsage ncpus limit).cpuTurn = 1 := by
  have hlim : ¬ ((0 : Nat) ≥ limit) := by omega
  have hlim0 : limit ≠ 0 := by omega
  refine ⟨?_, ?_, ?_, ?_, ?_⟩ <;>
    simp [cpuBranch, freshCPUSt, fifoFloat, hlim, hlim0]

/-- C6 witness: concrete first tick with `total = 100`, `system = 1000`,
2 online cpus, capacity 5. -/
theorem cpu_first_tick_step_witness :
    (0 : Nat) < 5 ∧
    (cpuBranch freshCPUSt 100 1000 2 5).percent =
      [((100 : Nat) : ℚ) / ((1000 : Nat) : ℚ) * ((2 : Nat) : ℚ) * 100] ∧
    (cpuBranch freshCPUSt 100 1000 2 5).oldUsage = 100 ∧
    (cpuBranch freshCPUSt 100 1000 2 5).cpuTurn = 1 :=
  ⟨by decide, (cpu_first_tick_step 100 1000 2 5 (by decide)).1,
   (cpu_first_tick_step 100 1000 2 5 (by decide)).2.2.1,
   (cpu_first_tick_step 100 1000 2 5 (by decide)).2.2.2.2⟩

/-- C7 (code_bug evidence): with baseline cpu min 60, max 70 and 2
online cpus, `startRoutine` leaves the CPU percent series empty because
the result of the `fifoFloat` call is never assigned; had it been
assigned, the series would have been seeded with the midpoint value 32
(integer arithmetic: `((60+70)/2)/2`). -/
theorem startRoutine_seed_discarded :
    startRoutineCPUPercent [] 60 70 2 5 = [] ∧
    fifoFloat [] ((Int.tdiv (Int.tdiv ((60 : Int) + 70) 2) 2 : Int) : ℚ) 5 =
      [((32 : Int) : ℚ)] := by
  constructor
  · rfl
  · have h32 : Int.tdiv (Int.tdiv ((60 : Int) + 70) 2) 2 = 32 := by decide
    rw [h32]
    simp [fifoFloat]

/-- C8 counterexample: a non-empty series whose only entry is NaN makes
`averrageFloat` return `0.0 / 0.0`, which is NaN — the claim says the
result is never NaN. -/
theorem averrageFloat_all_nan :
    averrageFloat [none] = none ∧ ([none] : List (Option ℚ)).length = 1 := by
  exact ⟨rfl, rfl⟩

/-- C8 (amended): `averrageFloat` excludes NaN entries from both the sum
and the count; whenever at least one entry is not NaN the result is the
arithmetic mean of the non-NaN entries and is itself not NaN; a
non-empty all-NaN series instead yields NaN (`0.0/0.0`). -/
theorem averrageFloat_mean (array : List (Option ℚ)) (h : array.filterMap id ≠ []) :
    averrageFloat array =
      some ((array.filterMap id).sum / ((array.filterMap id).length : ℚ)) ∧
    averrageFloat array ≠ none := by
  have hlen : ¬ ((array.filterMap id).length = 0) := by
    simpa [List.length_eq_zero] using h
  have harr : ¬ (array.length = 0) := by
    intro h0
    rw [List.length_eq_zero] at h0
    subst h0
    simp at h
  constructor
  · unfold averrageFloat
    rw [if_neg harr, if_neg hlen]
  · unfold averrageFloat
    rw [if_neg harr, if_neg hlen]
    simp

/-- C8 witness: `[2, NaN, 4]` averages to 3, skipping the NaN entry. -/
theorem averrageFloat_mean_witness :
    ([some (2 : ℚ), none, some 4].filterMap id ≠ []) ∧
    averrageFloat [some (2 : ℚ), none, some 4] = some (3 : ℚ) := by
  have h : [some (2 : ℚ), none, some 4].filterMap id ≠ [] := by
    simp [List.filterMap_cons]
  refine ⟨h, ?_⟩
  rw [(averrageFloat_mean [some (2 : ℚ), none, some 4] h).1]
  norm_num [List.filterMap_cons]

/-- C9: for every series whose first element is nonzero and which
contains a zero entry, the weights generated from the series itself (as
at the threshold-series call site in `Watch`) stop before the end of the
series, yet `weightedAverrage` indexes the weight slice at every index of
the value series, so the access faults out of bounds — the emptiness
guard does not cover a short-but-nonempty weight slice. -/
theorem weightedAverrage_oob (a : Nat) (rest : List Nat) (ha : a ≠ 0)
    (hz : (0 : Nat) ∈ a :: rest) :
    weightedAverrage (a :: rest) (generateMemoryWeight (a :: rest) (a :: rest)) = none := by
  have hhi : ¬ (highestOf (a :: rest) = 0) := by
    have := head_le_highestOf a rest
    omega
  have hw : generateMemoryWeight (a :: rest) (a :: rest) =
      genWeightLoop (highestOf (a :: rest)) (a :: rest) := by
    unfold generateMemoryWeight
    rw [if_neg hhi]
  have hlen := genWeightLoop_length_lt (highestOf (a :: rest)) (a :: rest) hz
  have hne : (genWeightLoop (highestOf (a :: rest)) (a :: rest)).length ≠ 0 := by
    simp only [genWeightLoop, if_neg ha, List.length_cons]
    omega
  have hg : ¬ ((a :: rest).length = 0 ∨
      (genWeightLoop (highestOf (a :: rest)) (a :: rest)).length = 0) := by
    push_neg
    exact ⟨by simp, hne⟩
  unfold weightedAverrage
  rw [hw, if_neg hg, wavgTotal_none _ _ hlen]

/-- C9 witness: the series `[5, 0, 3]` (first element nonzero, zero
before the end) faults in `weightedAverrage` with its own generated
weights. -/
theorem weightedAverrage_oob_witness :
    (5 : Nat) ≠ 0 ∧ (0 : Nat) ∈ [5, 0, 3] ∧
    weightedAverrage [5, 0, 3] (generateMemoryWeight [5, 0, 3] [5, 0, 3]) = none :=
  ⟨by decide, by decide, weightedAverrage_oob 5 [0, 3] (by decide) (by decide)⟩

/-- C10: `getExtremeValues` updates at most one extreme per tick — when
`usage < lowest` the returned highest equals the input highest even if
`usage` also exceeds it — and consequently a window of strictly
decreasing samples after the reset `(highest, lowest) = (0, usage)`
leaves highest at 0, so the recorded window amplitude is
`0 / lowest = 0` (when `lowest ≠ 0`, the case in which an amplitude is
recorded at all). -/
theorem getExtremeValues_single_update :
    (∀ usage lowest highest : Nat, usage < lowest →
      (getExtremeValues usage lowest highest).2 = highest) ∧
    (∀ (init : Nat) (samples : List Nat), List.Chain (· > ·) init samples →
      (windowExtremes init samples).2 = 0 ∧
      ((windowExtremes init samples).1 ≠ 0 →
        amplitudeEntry (windowExtremes init samples).2 (windowExtremes init samples).1 =
          some 0)) := by
  constructor
  · intro usage lowest highest h
    unfold getExtremeValues
    rw [if_pos h]
  · intro init samples hch
    rw [windowExtremes_chain samples init hch]
    refine ⟨rfl, ?_⟩
    intro hne
    unfold amplitudeEntry
    rw [if_neg hne]
    simp [Nat.zero_div]

/-- C10 witness: `getExtremeValues 3 5 2` keeps highest 2 although
`3 > 2`; the strictly decreasing window `5, [4, 2, 1]` ends with
extremes `(1, 0)` and amplitude 0. -/
theorem getExtremeValues_single_update_witness :
    ((3 : Nat) < 5 ∧ (getExtremeValues 3 5 2).2 = 2) ∧
    (List.Chain (· > ·) 5 [4, 2, 1] ∧ (windowExtremes 5 [4, 2, 1]).2 = 0 ∧
      (windowExtremes 5 [4, 2, 1]).1 ≠ 0 ∧
      amplitudeEntry (windowExtremes 5 [4, 2, 1]).2 (windowExtremes 5 [4, 2, 1]).1 =
        some 0) := by
  have hc : List.Chain (· > ·) 5 [4, 2, 1] := by simp [List.chain_cons]
  refine ⟨⟨by decide, getExtremeValues_single_update.1 3 5 2 (by decide)⟩,
    hc, (getExtremeValues_single_update.2 5 [4, 2, 1] hc).1, by decide,
    (getExtremeValues_single_update.2 5 [4, 2, 1] hc).2 (by decide)⟩

end AutoRange
